import Mathlib

/-!
Verification of the document-processing pipeline of the Invoice repository.

The embedding models `processDocument` (src/lib/api/document/process.ts) and
`getDocumentPageCount` (src/utils/pdf/pageCount.ts).  External collaborators
(the logging service `logProcessing`, the storage client `getPublicUrl`, the
extraction service `extractDocumentInfo`, the date normalizer `parseDate`, and
the database upsert) are parameters of an environment record: each call either
returns a value or fails.  A thrown JS exception is an `Except.error` carrying
the error message; the `try/catch` of the source is the explicit split between
a "body" function and the catch handler that wraps it.  The `document_info`
table is a list of rows; an upsert with `onConflict: document_id` updates every
row whose key matches (overwriting exactly the columns present in the payload)
or appends a fresh row.  Wall-clock time is a single `time` field of the
environment.  Every collaborator call is also recorded in an event trace so
that claims about which collaborators run can be stated.
-/

set_option linter.unusedVariables false

namespace Invoice

/-- Structured fields returned by the extraction collaborator
(`extractDocumentInfo`): vendor, invoice number, free-text date, amount.
All fields are optional, as in the TypeScript `DocumentInfo` interface. -/
structure ExtractedInfo where
  vendorName : Option String
  invoiceNumber : Option String
  invoiceDate : Option String
  totalAmount : Option Int
deriving DecidableEq, Repr

/-- A row of the `document_info` table.  `document_id` is the conflict key;
every other column is nullable (`none` = SQL NULL). -/
structure DocRow where
  document_id : String
  vendor_name : Option String := none
  invoice_number : Option String := none
  invoice_date : Option String := none
  total_amount : Option Int := none
  processing_status : Option String := none
  processed_at : Option Nat := none
  updated_at : Option Nat := none
  file_url : Option String := none
  error_message : Option String := none
  page_count : Option Nat := none
deriving DecidableEq, Repr

/-- An upsert payload: for each column, `none` means the column is absent from
the payload (kept on conflict), `some v` means the column is present with value
`v` (which may itself be NULL, i.e. `some none`). -/
structure Payload where
  document_id : String
  vendor_name : Option (Option String) := none
  invoice_number : Option (Option String) := none
  invoice_date : Option (Option String) := none
  total_amount : Option (Option Int) := none
  processing_status : Option (Option String) := none
  processed_at : Option (Option Nat) := none
  updated_at : Option (Option Nat) := none
  file_url : Option (Option String) := none
  error_message : Option (Option String) := none
  page_count : Option (Option Nat) := none
deriving DecidableEq, Repr

/-- Overwrite on an existing row exactly the columns present in the payload. -/
def applyPayload (r : DocRow) (p : Payload) : DocRow :=
  { r with
    vendor_name := p.vendor_name.getD r.vendor_name
    invoice_number := p.invoice_number.getD r.invoice_number
    invoice_date := p.invoice_date.getD r.invoice_date
    total_amount := p.total_amount.getD r.total_amount
    processing_status := p.processing_status.getD r.processing_status
    processed_at := p.processed_at.getD r.processed_at
    updated_at := p.updated_at.getD r.updated_at
    file_url := p.file_url.getD r.file_url
    error_message := p.error_message.getD r.error_message
    page_count := p.page_count.getD r.page_count }

/-- The row inserted when no row with the payload's key exists: all columns
NULL except those present in the payload. -/
def freshRow (p : Payload) : DocRow :=
  applyPayload { document_id := p.document_id } p

/-- `upsert` with `onConflict: 'document_id', ignoreDuplicates: false`:
if a row with the key exists, overwrite the payload's columns on it;
otherwise insert a fresh row. -/
def applyUpsert (s : List DocRow) (p : Payload) : List DocRow :=
  if s.any (fun r => r.document_id == p.document_id) then
    s.map (fun r => if r.document_id = p.document_id then applyPayload r p else r)
  else
    s ++ [freshRow p]

/-- The rows of the table whose key is `documentId`. -/
def rowsFor (s : List DocRow) (documentId : String) : List DocRow :=
  s.filter (fun r => r.document_id == documentId)

/-- An entry passed to the logging collaborator `logProcessing`.  The
`details` payload of the source is opaque to every claim and is omitted. -/
structure LogEntry where
  documentId : String
  status : String
  step : String
  errorMessage : Option String := none
deriving DecidableEq, Repr

/-- One observable collaborator call made during a run. -/
inductive CallEv where
  | logCall (e : LogEntry)
  | urlCall (fileUrl : String)
  | extractCall (url : String)
  | upsertCall (p : Payload)
deriving DecidableEq, Repr

/-- The `ProcessingResult` returned to callers: `{ success, error? }`. -/
structure ProcessingResult where
  success : Bool
  error : Option String := none
deriving DecidableEq, Repr

/-- The collaborators of `processDocument`.  `log`, `extract` may throw
(`Except.error msg` models a rejected promise carrying message `msg`);
`getPublicUrl` returns a URL together with an optional error, as the source
destructures `{ data: { publicUrl }, error: urlError }`; `upsertErr` gives the
optional database error of an upsert (the supabase client reports errors in
the result, it does not throw); `parseDate` is the pure date normalizer,
returning `none` for its failure sentinel; `time` is the wall clock. -/
structure Env where
  log : LogEntry → Except String Unit
  getPublicUrl : String → String × Option String
  extract : String → Except String (Option ExtractedInfo)
  parseDate : String → Option String
  upsertErr : Payload → Option String
  time : Nat

/-- The log entry written before any other remote call. -/
def processingLogEntry (documentId : String) : LogEntry :=
  { documentId := documentId, status := "processing", step := "Starting document processing" }

/-- The log entry written after a successful run. -/
def completedLogEntry (documentId : String) : LogEntry :=
  { documentId := documentId, status := "completed", step := "Document processing completed" }

/-- The log entry written by the catch handler. -/
def errorLogEntry (documentId : String) (msg : String) : LogEntry :=
  { documentId := documentId, status := "error", step := "Document processing failed",
    errorMessage := some msg }

/-- The success-path upsert payload: all extracted fields, the normalized
date, status `completed`, timestamps and the file URL. -/
def completedPayload (documentId : String) (info : ExtractedInfo) (parsedDate : Option String)
    (fileUrl : String) (time : Nat) : Payload :=
  { document_id := documentId
    vendor_name := some info.vendorName
    invoice_number := some info.invoiceNumber
    invoice_date := some parsedDate
    total_amount := some info.totalAmount
    processing_status := some (some "completed")
    processed_at := some (some time)
    updated_at := some (some time)
    file_url := some (some fileUrl) }

/-- The catch-handler upsert payload: key, status `error`, the error message
and the update timestamp only. -/
def errorPayload (documentId : String) (msg : String) (time : Nat) : Payload :=
  { document_id := documentId
    processing_status := some (some "error")
    error_message := some (some msg)
    updated_at := some (some time) }

/-- `extractedInfo.invoiceDate ? parseDate(extractedInfo.invoiceDate) : null`:
JS truthiness makes both a missing and an empty date string skip parsing. -/
def normDate (parse : String → Option String) (invoiceDate : Option String) : Option String :=
  match invoiceDate with
  | none => none
  | some d => if d = "" then none else parse d

/-- JS truthiness of the optional date string: present and non-empty. -/
def strTruthy : Option String → Bool
  | none => false
  | some s => !(s == "")

/-- The `try` block of `processDocument`, from the empty-id check down to the
`completed` log write.  Returns the outcome (`Except.error msg` = a thrown
exception with message `msg`), the table after the block, and the trace of
collaborator calls made. -/
def processBody (env : Env) (store : List DocRow) (documentId fileUrl : String) :
    Except String Unit × List DocRow × List CallEv :=
  if documentId = "" then
    (Except.error "Invalid document ID", store, [])
  else
    match env.log (processingLogEntry documentId) with
    | Except.error m =>
      (Except.error m, store, [CallEv.logCall (processingLogEntry documentId)])
    | Except.ok _ =>
      match (env.getPublicUrl fileUrl).2 with
      | some _ =>
        (Except.error "Failed to get document URL", store,
          [CallEv.logCall (processingLogEntry documentId), CallEv.urlCall fileUrl])
      | none =>
        match env.extract (env.getPublicUrl fileUrl).1 with
        | Except.error m =>
          (Except.error m, store,
            [CallEv.logCall (processingLogEntry documentId), CallEv.urlCall fileUrl,
              CallEv.extractCall (env.getPublicUrl fileUrl).1])
        | Except.ok none =>
          (Except.error "Failed to extract document information", store,
            [CallEv.logCall (processingLogEntry documentId), CallEv.urlCall fileUrl,
              CallEv.extractCall (env.getPublicUrl fileUrl).1])
        | Except.ok (some info) =>
          if strTruthy info.invoiceDate && (normDate env.parseDate info.invoiceDate).isNone then
            (Except.error ("Invalid date format: " ++ info.invoiceDate.getD ""), store,
              [CallEv.logCall (processingLogEntry documentId), CallEv.urlCall fileUrl,
                CallEv.extractCall (env.getPublicUrl fileUrl).1])
          else
            match env.upsertErr (completedPayload documentId info
                (normDate env.parseDate info.invoiceDate) fileUrl env.time) with
            | some m =>
              (Except.error ("Failed to save document information: " ++ m), store,
                [CallEv.logCall (processingLogEntry documentId), CallEv.urlCall fileUrl,
                  CallEv.extractCall (env.getPublicUrl fileUrl).1,
                  CallEv.upsertCall (completedPayload documentId info
                    (normDate env.parseDate info.invoiceDate) fileUrl env.time)])
            | none =>
              match env.log (completedLogEntry documentId) with
              | Except.error m =>
                (Except.error m,
                  applyUpsert store (completedPayload documentId info
                    (normDate env.parseDate info.invoiceDate) fileUrl env.time),
                  [CallEv.logCall (processingLogEntry documentId), CallEv.urlCall fileUrl,
                    CallEv.extractCall (env.getPublicUrl fileUrl).1,
                    CallEv.upsertCall (completedPayload documentId info
                      (normDate env.parseDate info.invoiceDate) fileUrl env.time),
                    CallEv.logCall (completedLogEntry documentId)])
              | Except.ok _ =>
                (Except.ok (),
                  applyUpsert store (completedPayload documentId info
                    (normDate env.parseDate info.invoiceDate) fileUrl env.time),
                  [CallEv.logCall (processingLogEntry documentId), CallEv.urlCall fileUrl,
                    CallEv.extractCall (env.getPublicUrl fileUrl).1,
                    CallEv.upsertCall (completedPayload documentId info
                      (normDate env.parseDate info.invoiceDate) fileUrl env.time),
                    CallEv.logCall (completedLogEntry documentId)])

/-- `processDocument`: the body wrapped in the catch handler.  The handler
logs the error (unguarded: if this log write throws, the exception escapes,
i.e. the overall outcome is `Except.error`), then upserts an error-status
record ignoring the upsert's result, then returns
`{ success: false, error: error.message || 'Failed to process document' }`. -/
def processDocument (env : Env) (store : List DocRow) (documentId fileUrl : String) :
    Except String ProcessingResult × List DocRow × List CallEv :=
  match processBody env store documentId fileUrl with
  | (Except.ok _, s, t) => (Except.ok { success := true }, s, t)
  | (Except.error msg, s, t) =>
    match env.log (errorLogEntry documentId msg) with
    | Except.error m2 =>
      (Except.error m2, s, t ++ [CallEv.logCall (errorLogEntry documentId msg)])
    | Except.ok _ =>
      (Except.ok { success := false,
                   error := some (if msg = "" then "Failed to process document" else msg) },
        (if (env.upsertErr (errorPayload documentId msg env.time)).isNone then
          applyUpsert s (errorPayload documentId msg env.time)
        else s),
        t ++ [CallEv.logCall (errorLogEntry documentId msg),
          CallEv.upsertCall (errorPayload documentId msg env.time)])

/-- The collaborators of `getDocumentPageCount`.  `lookup` models the
`maybeSingle` select of `page_count`: it may throw, or return
`(docInfo, error)` where `docInfo` is `none` when no row exists and otherwise
carries the row's nullable `page_count`; `head` models the HTTP `HEAD` fetch:
it may throw, or return `response.ok` and the parsed `content-length`
header (`none` when the header is absent, in which case the source parses
`'0'`). -/
structure PCEnv where
  lookup : String → Except String (Option (Option Nat) × Option String)
  getPublicUrl : String → String × Option String
  head : String → Except String (Bool × Option Nat)
  upsertErr : Payload → Option String
  time : Nat

/-- The page-count upsert payload: key, estimated count, update timestamp. -/
def pageCountPayload (documentId : String) (pages : Nat) (time : Nat) : Payload :=
  { document_id := documentId
    page_count := some (some pages)
    updated_at := some (some time) }

/-- `!error && docInfo?.page_count` — the stored count is used only when the
select reported no error, a row exists, and its `page_count` is truthy
(non-NULL and non-zero). -/
def storedPageCount (docInfo : Option (Option Nat)) (err : Option String) : Option Nat :=
  if err.isNone then
    match docInfo with
    | some (some n) => if n = 0 then none else some n
    | some none => none
    | none => none
  else none

/-- The `try` block of `getDocumentPageCount`. -/
def pageCountBody (env : PCEnv) (store : List DocRow) (documentId fileUrl : String) :
    Except String Nat × List DocRow :=
  match env.lookup documentId with
  | Except.error m => (Except.error m, store)
  | Except.ok q =>
    match storedPageCount q.1 q.2 with
    | some n => (Except.ok n, store)
    | none =>
      match (env.getPublicUrl fileUrl).2 with
      | some m => (Except.error m, store)
      | none =>
        match env.head (env.getPublicUrl fileUrl).1 with
        | Except.error m => (Except.error m, store)
        | Except.ok r =>
          if r.1 then
            (Except.ok (max 1 ((r.2.getD 0 + 100 * 1024 - 1) / (100 * 1024))),
              if (env.upsertErr (pageCountPayload documentId
                    (max 1 ((r.2.getD 0 + 100 * 1024 - 1) / (100 * 1024))) env.time)).isNone then
                applyUpsert store (pageCountPayload documentId
                  (max 1 ((r.2.getD 0 + 100 * 1024 - 1) / (100 * 1024))) env.time)
              else store)
          else
            (Except.error "Failed to fetch document info", store)

/-- `getDocumentPageCount`: the body wrapped in its catch handler, which
returns the default of 1 page on any error. -/
def getDocumentPageCount (env : PCEnv) (store : List DocRow) (documentId fileUrl : String) :
    Nat × List DocRow :=
  match pageCountBody env store documentId fileUrl with
  | (Except.ok n, s) => (n, s)
  | (Except.error _, s) => (1, s)

/-! ### Lemmas about the table model -/

lemma applyPayload_document_id (r : DocRow) (p : Payload) :
    (applyPayload r p).document_id = r.document_id := rfl

lemma freshRow_document_id (p : Payload) : (freshRow p).document_id = p.document_id := rfl

lemma rowsFor_append (s t : List DocRow) (k : String) :
    rowsFor (s ++ t) k = rowsFor s k ++ rowsFor t k :=
  List.filter_append s t

lemma rowsFor_map_update (s : List DocRow) (p : Payload) :
    rowsFor (s.map fun r => if r.document_id = p.document_id then applyPayload r p else r)
        p.document_id
      = (rowsFor s p.document_id).map fun r => applyPayload r p := by
  induction s with
  | nil => rfl
  | cons a s ih =>
    by_cases ha : a.document_id = p.document_id
    · simp only [List.map_cons, rowsFor, List.filter_cons, if_pos ha,
        applyPayload_document_id] at ih ⊢
      have hb : (p.document_id == p.document_id) = true := by simp
      simp only [ha, hb, if_pos]
      simpa [rowsFor] using ih
    · simp only [List.map_cons, rowsFor, List.filter_cons, if_neg ha] at ih ⊢
      have hb : (a.document_id == p.document_id) = false := by
        simpa using ha
      simpa [rowsFor, hb] using ih

lemma rowsFor_eq_nil_of_any_false (s : List DocRow) (k : String)
    (h : s.any (fun r => r.document_id == k) = false) : rowsFor s k = [] := by
  rw [rowsFor, List.filter_eq_nil_iff]
  intro r hr
  have := List.any_eq_false.mp h r hr
  simpa using this

lemma rowsFor_ne_nil_of_any_true (s : List DocRow) (k : String)
    (h : s.any (fun r => r.document_id == k) = true) : rowsFor s k ≠ [] := by
  obtain ⟨r, hr, hk⟩ := List.any_eq_true.mp h
  intro hnil
  have hmem : r ∈ rowsFor s k := List.mem_filter.mpr ⟨hr, hk⟩
  rw [hnil] at hmem
  exact List.not_mem_nil r hmem

lemma rowsFor_applyUpsert_self (s : List DocRow) (p : Payload)
    (h : (rowsFor s p.document_id).length ≤ 1) :
    ∃ r0 : DocRow, rowsFor (applyUpsert s p) p.document_id = [applyPayload r0 p] := by
  unfold applyUpsert
  by_cases hs : s.any (fun r => r.document_id == p.document_id) = true
  · rw [if_pos hs]
    have hne := rowsFor_ne_nil_of_any_true s p.document_id hs
    have hpos : 0 < (rowsFor s p.document_id).length := List.length_pos.mpr hne
    have hlen : (rowsFor s p.document_id).length = 1 := by omega
    obtain ⟨r0, hr0⟩ := List.length_eq_one.mp hlen
    refine ⟨r0, ?_⟩
    rw [rowsFor_map_update, hr0]
    rfl
  · rw [if_neg hs]
    refine ⟨{ document_id := p.document_id }, ?_⟩
    rw [rowsFor_append, rowsFor_eq_nil_of_any_false s _ (by simpa using hs)]
    simp [rowsFor, List.filter_cons, freshRow, applyPayload_document_id]

lemma rowsFor_applyUpsert_status (s : List DocRow) (p : Payload) (v : Option String)
    (hv : p.processing_status = some v) :
    ∀ r ∈ rowsFor (applyUpsert s p) p.document_id, r.processing_status = v := by
  intro r hr
  unfold applyUpsert at hr
  by_cases hs : s.any (fun r => r.document_id == p.document_id) = true
  · rw [if_pos hs] at hr
    obtain ⟨hmem, hkey⟩ := List.mem_filter.mp hr
    obtain ⟨r1, hr1, hr⟩ := List.mem_map.mp hmem
    by_cases h1 : r1.document_id = p.document_id
    · rw [← hr, if_pos h1]
      simp [applyPayload, hv]
    · rw [← hr, if_neg h1] at hkey
      exact absurd (by simpa using hkey) h1
  · rw [if_neg hs] at hr
    rw [rowsFor_append, rowsFor_eq_nil_of_any_false s _ (by simpa using hs)] at hr
    have : r = freshRow p := by
      simpa [rowsFor, List.filter_cons, freshRow_document_id] using hr
    rw [this]
    simp [freshRow, applyPayload, hv]

lemma rowsFor_applyUpsert_ne_nil (s : List DocRow) (p : Payload) :
    rowsFor (applyUpsert s p) p.document_id ≠ [] := by
  unfold applyUpsert
  by_cases hs : s.any (fun r => r.document_id == p.document_id) = true
  · rw [if_pos hs]
    obtain ⟨r, hr, hk⟩ := List.any_eq_true.mp hs
    have hk' : r.document_id = p.document_id := by simpa using hk
    intro hnil
    have hmem : applyPayload r p ∈
        s.map fun r => if r.document_id = p.document_id then applyPayload r p else r :=
      List.mem_map.mpr ⟨r, hr, by rw [if_pos hk']⟩
    have hmem2 : applyPayload r p ∈ rowsFor
        (s.map fun r => if r.document_id = p.document_id then applyPayload r p else r)
        p.document_id :=
      List.mem_filter.mpr ⟨hmem, by simp [applyPayload_document_id, hk']⟩
    rw [hnil] at hmem2
    exact List.not_mem_nil _ hmem2
  · rw [if_neg hs]
    intro hnil
    have hmem2 : freshRow p ∈ rowsFor (s ++ [freshRow p]) p.document_id :=
      List.mem_filter.mpr ⟨by simp, by simp [freshRow_document_id]⟩
    rw [hnil] at hmem2
    exact List.not_mem_nil _ hmem2

lemma mem_applyUpsert (s : List DocRow) (p : Payload) (r : DocRow)
    (h : r ∈ applyUpsert s p) : r ∈ s ∨ ∃ r0, r = applyPayload r0 p := by
  unfold applyUpsert at h
  by_cases hs : s.any (fun r => r.document_id == p.document_id) = true
  · rw [if_pos hs] at h
    obtain ⟨r1, hr1, hr⟩ := List.mem_map.mp h
    by_cases h1 : r1.document_id = p.document_id
    · right
      exact ⟨r1, by rw [← hr, if_pos h1]⟩
    · left
      rw [← hr, if_neg h1]
      exact hr1
  · rw [if_neg hs] at h
    rcases List.mem_append.mp h with h | h
    · left
      exact h
    · right
      exact ⟨{ document_id := p.document_id }, by simpa [freshRow] using List.mem_singleton.mp h⟩

lemma applyPayload_completedPayload (r : DocRow) (documentId : String) (info : ExtractedInfo)
    (parsedDate : Option String) (fileUrl : String) (time : Nat) :
    applyPayload r (completedPayload documentId info parsedDate fileUrl time) =
      { document_id := r.document_id
        vendor_name := info.vendorName
        invoice_number := info.invoiceNumber
        invoice_date := parsedDate
        total_amount := info.totalAmount
        processing_status := some "completed"
        processed_at := some time
        updated_at := some time
        file_url := some fileUrl
        error_message := r.error_message
        page_count := r.page_count } := rfl

lemma applyPayload_errorPayload (r : DocRow) (documentId msg : String) (time : Nat) :
    applyPayload r (errorPayload documentId msg time) =
      { r with processing_status := some "error", error_message := some msg,
               updated_at := some time } := rfl

/-! ### Behaviour of `processDocument` under assumptions on the collaborators -/

/-- The date-validation guard is false when the extracted date, if present and
non-empty, parses. -/
lemma date_guard_false (parse : String → Option String) (invoiceDate : Option String)
    (hdate : ∀ d, invoiceDate = some d → d ≠ "" → parse d ≠ none) :
    (strTruthy invoiceDate && (normDate parse invoiceDate).isNone) = false := by
  cases hD : invoiceDate with
  | none => simp [strTruthy]
  | some d =>
    by_cases hde : d = ""
    · simp [strTruthy, hde]
    · have hp := hdate d hD hde
      cases hpp : parse d with
      | none => exact absurd hpp hp
      | some v => simp [strTruthy, hde, normDate, hpp]

/-- When every collaborator succeeds, the whole run is the success path:
result `{success: true}`, one completed upsert, the full five-call trace. -/
lemma processDocument_all_ok (env : Env) (store : List DocRow) (documentId fileUrl : String)
    (info : ExtractedInfo)
    (hid : documentId ≠ "")
    (hlog : ∀ e, env.log e = Except.ok ())
    (hurl : (env.getPublicUrl fileUrl).2 = none)
    (hext : env.extract (env.getPublicUrl fileUrl).1 = Except.ok (some info))
    (hdate : ∀ d, info.invoiceDate = some d → d ≠ "" → env.parseDate d ≠ none)
    (hup : ∀ p, env.upsertErr p = none) :
    processDocument env store documentId fileUrl =
      (Except.ok { success := true },
       applyUpsert store (completedPayload documentId info
         (normDate env.parseDate info.invoiceDate) fileUrl env.time),
       [CallEv.logCall (processingLogEntry documentId), CallEv.urlCall fileUrl,
        CallEv.extractCall (env.getPublicUrl fileUrl).1,
        CallEv.upsertCall (completedPayload documentId info
          (normDate env.parseDate info.invoiceDate) fileUrl env.time),
        CallEv.logCall (completedLogEntry documentId)]) := by
  have hbody : processBody env store documentId fileUrl =
      (Except.ok (),
       applyUpsert store (completedPayload documentId info
         (normDate env.parseDate info.invoiceDate) fileUrl env.time),
       [CallEv.logCall (processingLogEntry documentId), CallEv.urlCall fileUrl,
        CallEv.extractCall (env.getPublicUrl fileUrl).1,
        CallEv.upsertCall (completedPayload documentId info
          (normDate env.parseDate info.invoiceDate) fileUrl env.time),
        CallEv.logCall (completedLogEntry documentId)]) := by
    rw [processBody, if_neg hid, hlog]
    rw [show (env.getPublicUrl fileUrl).2 = none from hurl]
    rw [hext]
    simp only [date_guard_false env.parseDate info.invoiceDate hdate, Bool.false_eq_true,
      if_neg, ite_false]
    rw [hup, hlog]
  rw [processDocument, hbody]

/-- When the body throws `msg` and the catch handler's log write succeeds,
the run ends with the structured failure result, the error-status upsert and
the two extra trace events. -/
lemma processDocument_catch (env : Env) (store : List DocRow) (documentId fileUrl msg : String)
    (s : List DocRow) (t : List CallEv)
    (hbody : processBody env store documentId fileUrl = (Except.error msg, s, t))
    (hlog : env.log (errorLogEntry documentId msg) = Except.ok ()) :
    processDocument env store documentId fileUrl =
      (Except.ok { success := false,
                   error := some (if msg = "" then "Failed to process document" else msg) },
       (if (env.upsertErr (errorPayload documentId msg env.time)).isNone then
          applyUpsert s (errorPayload documentId msg env.time) else s),
       t ++ [CallEv.logCall (errorLogEntry documentId msg),
         CallEv.upsertCall (errorPayload documentId msg env.time)]) := by
  rw [processDocument, hbody]
  simp only [hlog]

/-- When the body throws `msg` and the catch handler's log write itself
throws, the exception escapes `processDocument`. -/
lemma processDocument_escape (env : Env) (store : List DocRow)
    (documentId fileUrl msg m2 : String) (s : List DocRow) (t : List CallEv)
    (hbody : processBody env store documentId fileUrl = (Except.error msg, s, t))
    (hlog : env.log (errorLogEntry documentId msg) = Except.error m2) :
    processDocument env store documentId fileUrl =
      (Except.error m2, s, t ++ [CallEv.logCall (errorLogEntry documentId msg)]) := by
  rw [processDocument, hbody]
  simp only [hlog]

/-- The only upsert the `try` block ever issues is the completed payload. -/
lemma upsert_of_processBody (env : Env) (store : List DocRow) (documentId fileUrl : String)
    (p : Payload) (h : CallEv.upsertCall p ∈ (processBody env store documentId fileUrl).2.2) :
    ∃ info : ExtractedInfo, p = completedPayload documentId info
      (normDate env.parseDate info.invoiceDate) fileUrl env.time := by
  by_cases hid : documentId = ""
  · rw [processBody, if_pos hid] at h
    simp at h
  · rw [processBody, if_neg hid] at h
    cases h1 : env.log (processingLogEntry documentId) with
    | error m => simp only [h1] at h; simp at h
    | ok u =>
      simp only [h1] at h
      cases h2 : (env.getPublicUrl fileUrl).2 with
      | some e => simp only [h2] at h; simp at h
      | none =>
        simp only [h2] at h
        cases h3 : env.extract (env.getPublicUrl fileUrl).1 with
        | error m => simp only [h3] at h; simp at h
        | ok oinfo =>
          simp only [h3] at h
          cases oinfo with
          | none => simp at h
          | some info =>
            by_cases h4 : (strTruthy info.invoiceDate &&
                (normDate env.parseDate info.invoiceDate).isNone) = true
            · simp only [if_pos h4] at h
              simp at h
            · simp only [if_neg h4] at h
              cases h5 : env.upsertErr (completedPayload documentId info
                  (normDate env.parseDate info.invoiceDate) fileUrl env.time) with
              | some m =>
                simp only [h5] at h
                simp at h
                exact ⟨info, h⟩
              | none =>
                simp only [h5] at h
                cases h6 : env.log (completedLogEntry documentId) with
                | error m =>
                  simp only [h6] at h
                  simp at h
                  exact ⟨info, h⟩
                | ok v =>
                  simp only [h6] at h
                  simp at h
                  exact ⟨info, h⟩

/-- Every upsert issued by `processDocument` is either the completed payload
or the catch handler's error payload. -/
lemma upsert_of_processDocument (env : Env) (store : List DocRow) (documentId fileUrl : String)
    (p : Payload) (h : CallEv.upsertCall p ∈ (processDocument env store documentId fileUrl).2.2) :
    (∃ info : ExtractedInfo, p = completedPayload documentId info
      (normDate env.parseDate info.invoiceDate) fileUrl env.time) ∨
    (∃ msg : String, p = errorPayload documentId msg env.time) := by
  rcases hb : processBody env store documentId fileUrl with ⟨res, s, t⟩
  cases res with
  | ok u =>
    rw [processDocument, hb] at h
    left
    exact upsert_of_processBody env store documentId fileUrl p (by rw [hb]; exact h)
  | error msg =>
    rw [processDocument, hb] at h
    cases h2 : env.log (errorLogEntry documentId msg) with
    | error m2 =>
      simp only [h2] at h
      simp only [List.mem_append, List.mem_singleton] at h
      rcases h with h | h
      · left
        exact upsert_of_processBody env store documentId fileUrl p (by rw [hb]; exact h)
      · exact absurd h (by simp)
    | ok v =>
      simp only [h2] at h
      simp only [List.mem_append, List.mem_cons, List.mem_singleton] at h
      rcases h with h | h | h
      · left
        exact upsert_of_processBody env store documentId fileUrl p (by rw [hb]; exact h)
      · exact absurd h (by simp)
      · rcases h with h | h
        · right
          exact ⟨msg, by simpa using h⟩
        · exact absurd h (by simp)

/-- Whenever the `try` block reaches the storage or extraction collaborator,
the very first collaborator call of the run was the `processing` log write. -/
lemma trace_head_of_urlCall (env : Env) (store : List DocRow) (documentId fileUrl : String)
    (u : String) (h : CallEv.urlCall u ∈ (processBody env store documentId fileUrl).2.2) :
    (processBody env store documentId fileUrl).2.2.head? =
      some (CallEv.logCall (processingLogEntry documentId)) := by
  by_cases hid : documentId = ""
  · rw [processBody, if_pos hid] at h ⊢
    simp at h
  · rw [processBody, if_neg hid] at h ⊢
    cases h1 : env.log (processingLogEntry documentId) with
    | error m => simp only [h1] at h; simp at h
    | ok v =>
      simp only [h1]
      cases h2 : (env.getPublicUrl fileUrl).2 with
      | some e => rfl
      | none =>
        cases h3 : env.extract (env.getPublicUrl fileUrl).1 with
        | error m => rfl
        | ok oinfo =>
          cases oinfo with
          | none => rfl
          | some info =>
            by_cases h4 : (strTruthy info.invoiceDate &&
                (normDate env.parseDate info.invoiceDate).isNone) = true
            · simp only [if_pos h4]
              rfl
            · simp only [if_neg h4]
              cases h5 : env.upsertErr (completedPayload documentId info
                  (normDate env.parseDate info.invoiceDate) fileUrl env.time) with
              | some m => rfl
              | none =>
                cases h6 : env.log (completedLogEntry documentId) with
                | error m => rfl
                | ok w => rfl

/-- Ceiling division on naturals agrees with the rational ceiling. -/
lemma nat_ceilDiv_eq_rat_ceil (n k : ℕ) (hk : 0 < k) :
    (n + k - 1) / k = ⌈(n : ℚ) / (k : ℚ)⌉₊ := by
  have hkQ : (0 : ℚ) < k := by exact_mod_cast hk
  rw [← Nat.ceilDiv_eq_add_pred_div]
  apply eq_of_forall_ge_iff
  intro c
  rw [ceilDiv_le_iff_le_mul hk, Nat.ceil_le, div_le_iff₀ hkQ]
  rw [show ((c : ℚ) * k) = ((k * c : ℕ) : ℚ) by push_cast; ring, Nat.cast_le]

/-- If the `try` block returns success, the table it leaves behind is the
input table with the completed upsert applied. -/
lemma processBody_ok_store (env : Env) (store : List DocRow) (documentId fileUrl : String)
    (u : Unit) (s : List DocRow) (t : List CallEv)
    (hb : processBody env store documentId fileUrl = (Except.ok u, s, t)) :
    ∃ info : ExtractedInfo, s = applyUpsert store (completedPayload documentId info
      (normDate env.parseDate info.invoiceDate) fileUrl env.time) := by
  by_cases hid : documentId = ""
  · rw [processBody, if_pos hid] at hb
    exact absurd hb (by simp)
  · rw [processBody, if_neg hid] at hb
    cases h1 : env.log (processingLogEntry documentId) with
    | error m => simp only [h1] at hb; exact absurd hb (by simp)
    | ok v =>
      simp only [h1] at hb
      cases h2 : (env.getPublicUrl fileUrl).2 with
      | some e => simp only [h2] at hb; exact absurd hb (by simp)
      | none =>
        simp only [h2] at hb
        cases h3 : env.extract (env.getPublicUrl fileUrl).1 with
        | error m => simp only [h3] at hb; exact absurd hb (by simp)
        | ok oinfo =>
          simp only [h3] at hb
          cases oinfo with
          | none => exact absurd hb (by simp)
          | some info =>
            by_cases h4 : (strTruthy info.invoiceDate &&
                (normDate env.parseDate info.invoiceDate).isNone) = true
            · simp only [if_pos h4] at hb
              exact absurd hb (by simp)
            · simp only [if_neg h4] at hb
              cases h5 : env.upsertErr (completedPayload documentId info
                  (normDate env.parseDate info.invoiceDate) fileUrl env.time) with
              | some m => simp only [h5] at hb; exact absurd hb (by simp)
              | none =>
                simp only [h5] at hb
                cases h6 : env.log (completedLogEntry documentId) with
                | error m => simp only [h6] at hb; exact absurd hb (by simp)
                | ok w =>
                  simp only [h6] at hb
                  exact ⟨info, by
                    have := congrArg (fun x => x.2.1) hb
                    simpa using this.symm⟩

/-! ### Concrete environments used by witnesses and counterexamples -/

/-- A fixed extraction result with a parseable date. -/
def infoW : ExtractedInfo :=
  { vendorName := some "Acme Corp", invoiceNumber := some "INV-42",
    invoiceDate := some "2024-01-01", totalAmount := some 100 }

/-- A date normalizer that accepts exactly one date string. -/
def parseW : String → Option String :=
  fun d => if d = "2024-01-01" then some "2024-01-01" else none

/-- An environment in which every collaborator succeeds. -/
def happyEnv : Env :=
  { log := fun _ => Except.ok ()
    getPublicUrl := fun u => ("https://pub/" ++ u, none)
    extract := fun _ => Except.ok (some infoW)
    parseDate := parseW
    upsertErr := fun _ => none
    time := 7 }

/-- An environment whose logging collaborator always throws. -/
def logDownEnv : Env :=
  { log := fun _ => Except.error "log down"
    getPublicUrl := fun u => ("https://pub/" ++ u, none)
    extract := fun _ => Except.ok (some infoW)
    parseDate := parseW
    upsertErr := fun _ => none
    time := 7 }

/-! ### The claims -/

/-- C1: for every pair (documentId, fileUrl) with a non-empty documentId, if
every collaborator call (logging, URL resolution, extraction, upsert)
succeeds and the extracted record's date (when present) parses, then
`processDocument` returns `{success: true}` and exactly one DocumentInfo
record exists for that documentId, with processing_status `completed` and the
extracted fields (vendor name, invoice number, normalized date, total amount)
present. -/
theorem C1_process_success (env : Env) (store : List DocRow) (documentId fileUrl : String)
    (info : ExtractedInfo)
    (hid : documentId ≠ "")
    (hlog : ∀ e, env.log e = Except.ok ())
    (hurl : (env.getPublicUrl fileUrl).2 = none)
    (hext : env.extract (env.getPublicUrl fileUrl).1 = Except.ok (some info))
    (hdate : ∀ d, info.invoiceDate = some d → d ≠ "" → env.parseDate d ≠ none)
    (hup : ∀ p, env.upsertErr p = none)
    (huniq : (rowsFor store documentId).length ≤ 1) :
    (processDocument env store documentId fileUrl).1 = Except.ok { success := true } ∧
    ∃ r : DocRow,
      rowsFor (processDocument env store documentId fileUrl).2.1 documentId = [r] ∧
      r.processing_status = some "completed" ∧
      r.vendor_name = info.vendorName ∧
      r.invoice_number = info.invoiceNumber ∧
      r.invoice_date = normDate env.parseDate info.invoiceDate ∧
      r.total_amount = info.totalAmount := by
  rw [processDocument_all_ok env store documentId fileUrl info hid hlog hurl hext hdate hup]
  refine ⟨rfl, ?_⟩
  obtain ⟨r0, hr0⟩ := rowsFor_applyUpsert_self store
    (completedPayload documentId info (normDate env.parseDate info.invoiceDate) fileUrl env.time)
    huniq
  exact ⟨applyPayload r0 _, hr0, rfl, rfl, rfl, rfl, rfl⟩

/-- C1 witness: the success theorem applied to a concrete all-succeeding
environment. -/
theorem C1_witness :
    (processDocument happyEnv [] "doc-1" "file-1").1 = Except.ok { success := true } ∧
    ∃ r : DocRow,
      rowsFor (processDocument happyEnv [] "doc-1" "file-1").2.1 "doc-1" = [r] ∧
      r.processing_status = some "completed" ∧
      r.vendor_name = infoW.vendorName ∧
      r.invoice_number = infoW.invoiceNumber ∧
      r.invoice_date = normDate happyEnv.parseDate infoW.invoiceDate ∧
      r.total_amount = infoW.totalAmount :=
  C1_process_success happyEnv [] "doc-1" "file-1" infoW (by decide)
    (fun _ => rfl) rfl rfl
    (by
      intro d hd hne
      have : d = "2024-01-01" := by
        have h := hd
        simp only [infoW] at h
        exact (Option.some.injEq _ _ ▸ h).symm
      rw [this]
      decide)
    (fun _ => rfl) (by decide)

/-- C2 counterexample: when the logging collaborator throws, the catch
handler's own (unguarded) log write re-throws, and the exception escapes
`processDocument` instead of being returned as a structured result. -/
theorem C2_counterexample :
    (processDocument logDownEnv [] "doc-1" "file-1").1 = Except.error "log down" := by
  rfl

/-- C2 (amended): no exception escapes `processDocument` provided the catch
handler's log write succeeds; every body failure is then translated into
`{success: false, error: message}` (with a default message for an empty one).
If the catch handler's log write itself throws, that exception escapes. -/
theorem C2_no_escape (env : Env) (store : List DocRow) (documentId fileUrl : String)
    (herr : ∀ m, env.log (errorLogEntry documentId m) = Except.ok ()) :
    ∃ r : ProcessingResult,
      (processDocument env store documentId fileUrl).1 = Except.ok r ∧
      (∀ msg s t, processBody env store documentId fileUrl = (Except.error msg, s, t) →
        r = { success := false,
              error := some (if msg = "" then "Failed to process document" else msg) }) := by
  rcases hb : processBody env store documentId fileUrl with ⟨res, s, t⟩
  cases res with
  | ok u =>
    refine ⟨{ success := true }, ?_, ?_⟩
    · rw [processDocument, hb]
    · intro msg s' t' hb'
      exact absurd hb' (by simp)
  | error msg =>
    refine ⟨{ success := false,
              error := some (if msg = "" then "Failed to process document" else msg) }, ?_, ?_⟩
    · rw [processDocument_catch env store documentId fileUrl msg s t hb (herr msg)]
    · intro msg' s' t' hb'
      have hm : msg = msg' := by
        have := congrArg (fun x => x.1) hb'
        simpa using this
      rw [hm]

/-- C2 witness: the amended no-escape theorem at a concrete environment. -/
theorem C2_witness :
    ∃ r : ProcessingResult,
      (processDocument happyEnv [] "doc-1" "file-1").1 = Except.ok r ∧
      (∀ msg s t, processBody happyEnv [] "doc-1" "file-1" = (Except.error msg, s, t) →
        r = { success := false,
              error := some (if msg = "" then "Failed to process document" else msg) }) :=
  C2_no_escape happyEnv [] "doc-1" "file-1" (fun _ => rfl)

/-- C3 counterexample: the claim says a terminal status is always set on the
DocumentInfo record regardless of which step failed.  But when the logging
collaborator throws, the run fails at the first log write, the catch
handler's own log write throws too, and the run ends with the table still
empty: no DocumentInfo record carries any status for the document. -/
theorem C3_counterexample :
    (processDocument logDownEnv [] "doc-1" "file-1").2.1 = [] := by
  rfl

/-- C3 (amended): the intermediate `processing` status is recorded as a
processing-log entry — the first collaborator call of any run that reaches
the storage or extraction collaborator — not on the DocumentInfo record; and
a terminal status (`completed` or `error`) is set on the DocumentInfo record
after the run provided the catch handler's log write and error upsert
succeed (if those error-path collaborators fail, no terminal status is
recorded, as the counterexample shows). -/
theorem C3_terminal_status (env : Env) (store : List DocRow) (documentId fileUrl : String)
    (herr : ∀ m, env.log (errorLogEntry documentId m) = Except.ok ())
    (herrup : ∀ m, env.upsertErr (errorPayload documentId m env.time) = none) :
    (rowsFor (processDocument env store documentId fileUrl).2.1 documentId ≠ [] ∧
     ∀ r ∈ rowsFor (processDocument env store documentId fileUrl).2.1 documentId,
       r.processing_status = some "completed" ∨ r.processing_status = some "error") ∧
    (∀ u : String, CallEv.urlCall u ∈ (processDocument env store documentId fileUrl).2.2 →
       (processDocument env store documentId fileUrl).2.2.head? =
         some (CallEv.logCall (processingLogEntry documentId))) := by
  rcases hb : processBody env store documentId fileUrl with ⟨res, s, t⟩
  cases res with
  | ok u =>
    obtain ⟨info, hs⟩ := processBody_ok_store env store documentId fileUrl u s t hb
    have hpd : processDocument env store documentId fileUrl =
        (Except.ok { success := true }, s, t) := by
      rw [processDocument, hb]
    rw [hpd]
    refine ⟨⟨?_, ?_⟩, ?_⟩
    · rw [hs]
      exact rowsFor_applyUpsert_ne_nil store _
    · intro r hr
      left
      rw [hs] at hr
      exact rowsFor_applyUpsert_status store _ (some "completed") rfl r hr
    · intro v hv
      have hmem : CallEv.urlCall v ∈ (processBody env store documentId fileUrl).2.2 := by
        rw [hb]
        exact hv
      have hh := trace_head_of_urlCall env store documentId fileUrl v hmem
      rw [hb] at hh
      exact hh
  | error msg =>
    have hc := processDocument_catch env store documentId fileUrl msg s t hb (herr msg)
    rw [hc]
    have hup : (env.upsertErr (errorPayload documentId msg env.time)).isNone = true := by
      rw [herrup msg]
      rfl
    refine ⟨⟨?_, ?_⟩, ?_⟩
    · rw [if_pos hup]
      exact rowsFor_applyUpsert_ne_nil s _
    · intro r hr
      right
      rw [if_pos hup] at hr
      exact rowsFor_applyUpsert_status s _ (some "error") rfl r hr
    · intro v hv
      have hv' : CallEv.urlCall v ∈ t := by
        rcases List.mem_append.mp hv with h | h
        · exact h
        · exact absurd h (by simp)
      have hmem : CallEv.urlCall v ∈ (processBody env store documentId fileUrl).2.2 := by
        rw [hb]
        exact hv'
      have hh := trace_head_of_urlCall env store documentId fileUrl v hmem
      rw [hb] at hh
      cases t with
      | nil => exact absurd hv' (by simp)
      | cons a l => simpa using hh

/-- C3 witness: the amended theorem at a concrete environment. -/
theorem C3_witness :
    (rowsFor (processDocument happyEnv [] "doc-1" "file-1").2.1 "doc-1" ≠ [] ∧
     ∀ r ∈ rowsFor (processDocument happyEnv [] "doc-1" "file-1").2.1 "doc-1",
       r.processing_status = some "completed" ∨ r.processing_status = some "error") ∧
    (∀ u : String, CallEv.urlCall u ∈ (processDocument happyEnv [] "doc-1" "file-1").2.2 →
       (processDocument happyEnv [] "doc-1" "file-1").2.2.head? =
         some (CallEv.logCall (processingLogEntry "doc-1"))) :=
  C3_terminal_status happyEnv [] "doc-1" "file-1" (fun _ => rfl) (fun _ => rfl)

/-- C4 counterexample: the claim says that on an empty document identifier no
collaborator is called.  In fact the run still makes two collaborator calls:
the catch handler's error log write and the error-status upsert. -/
theorem C4_counterexample :
    (processDocument happyEnv [] "" "file-1").2.2 =
      [CallEv.logCall (errorLogEntry "" "Invalid document ID"),
       CallEv.upsertCall (errorPayload "" "Invalid document ID" 7)] := by
  rfl

/-- C4 (amended): on an empty document identifier the function returns
`{success: false, error: 'Invalid document ID'}` without calling the storage
or extraction collaborators; however the error-path logging and the
error-status upsert collaborators are still invoked (assuming the error log
write succeeds; if it throws, the exception escapes). -/
theorem C4_empty_id (env : Env) (store : List DocRow) (fileUrl : String)
    (herr : env.log (errorLogEntry "" "Invalid document ID") = Except.ok ()) :
    (processDocument env store "" fileUrl).1 =
      Except.ok { success := false, error := some "Invalid document ID" } ∧
    (processDocument env store "" fileUrl).2.2 =
      [CallEv.logCall (errorLogEntry "" "Invalid document ID"),
       CallEv.upsertCall (errorPayload "" "Invalid document ID" env.time)] ∧
    ∀ u : String, CallEv.urlCall u ∉ (processDocument env store "" fileUrl).2.2 ∧
      CallEv.extractCall u ∉ (processDocument env store "" fileUrl).2.2 := by
  have hb : processBody env store "" fileUrl =
      (Except.error "Invalid document ID", store, []) := by
    rw [processBody, if_pos rfl]
  have hc := processDocument_catch env store "" fileUrl "Invalid document ID" store [] hb herr
  rw [hc]
  refine ⟨by simp, by simp, ?_⟩
  intro v
  constructor <;> simp

/-- C4 witness: the amended theorem at a concrete environment. -/
theorem C4_witness :
    (processDocument happyEnv [] "" "file-1").1 =
      Except.ok { success := false, error := some "Invalid document ID" } ∧
    (processDocument happyEnv [] "" "file-1").2.2 =
      [CallEv.logCall (errorLogEntry "" "Invalid document ID"),
       CallEv.upsertCall (errorPayload "" "Invalid document ID" happyEnv.time)] ∧
    ∀ u : String, CallEv.urlCall u ∉ (processDocument happyEnv [] "" "file-1").2.2 ∧
      CallEv.extractCall u ∉ (processDocument happyEnv [] "" "file-1").2.2 :=
  C4_empty_id happyEnv [] "file-1" rfl

/-- The invalid-date error message is never the empty string, so the
`error.message || default` fallback keeps it. -/
lemma invalid_date_msg_ne_empty (d : String) : ("Invalid date format: " ++ d) ≠ "" := by
  intro hcon
  have h1 : ("Invalid date format: " ++ d).length = 0 := by
    rw [hcon]
    rfl
  rw [String.length_append] at h1
  have h2 : ("Invalid date format: " : String).length = 21 := rfl
  omega

/-- An extraction result whose date string does not parse. -/
def infoBadDate : ExtractedInfo :=
  { vendorName := some "Acme Corp", invoiceNumber := some "INV-42",
    invoiceDate := some "not-a-date", totalAmount := some 100 }

/-- All collaborators succeed, but the extracted record carries an
unparseable date. -/
def badDateEnv : Env :=
  { happyEnv with extract := fun _ => Except.ok (some infoBadDate) }

/-- Extraction returns a record with an unparseable date, and the logging
collaborator accepts every entry except the catch handler's `error` entry,
which it rejects. -/
def errLogDownBadDateEnv : Env :=
  { happyEnv with
    extract := fun _ => Except.ok (some infoBadDate)
    log := fun e =>
      if e.status = "error" then Except.error "error log down" else Except.ok () }

/-- C5 counterexample: the claim says that whenever the extracted date is
present but unparseable, `processDocument` returns a failure result whose
message contains the offending string.  But if the catch handler's own
(unguarded) log write rejects, that logging error escapes instead: the run
ends with the logging collaborator's exception, and no failure result —
in particular none containing the date string — is returned. -/
theorem C5_counterexample :
    (processDocument errLogDownBadDateEnv [] "doc-1" "file-1").1 =
      Except.error "error log down" := by
  rfl

/-- C5 (amended): whenever the extraction collaborator returns a record
whose invoiceDate is present (non-empty) but unparseable by the
date-normalization function, and the catch handler's error-log write
succeeds, `processDocument` returns a failure result whose error message
contains the offending date string, and no DocumentInfo record with status
`completed` is written during that invocation.  (If the error-log write
itself throws, that exception escapes instead and no result is returned;
the no-completed-record conjunct holds either way, since the completed
upsert is never reached.) -/
theorem C5_invalid_date (env : Env) (store : List DocRow) (documentId fileUrl d : String)
    (info : ExtractedInfo)
    (hid : documentId ≠ "")
    (hlog1 : env.log (processingLogEntry documentId) = Except.ok ())
    (hurl : (env.getPublicUrl fileUrl).2 = none)
    (hext : env.extract (env.getPublicUrl fileUrl).1 = Except.ok (some info))
    (hd : info.invoiceDate = some d)
    (hdne : d ≠ "")
    (hparse : env.parseDate d = none)
    (herr : env.log (errorLogEntry documentId ("Invalid date format: " ++ d)) = Except.ok ()) :
    (∃ pre post : String,
      (processDocument env store documentId fileUrl).1 =
        Except.ok { success := false, error := some (pre ++ d ++ post) }) ∧
    (∀ r ∈ (processDocument env store documentId fileUrl).2.1,
      r.processing_status = some "completed" → r ∈ store) := by
  have hguard : (strTruthy info.invoiceDate &&
      (normDate env.parseDate info.invoiceDate).isNone) = true := by
    rw [hd]
    simp [strTruthy, normDate, hdne, hparse]
  have hb : processBody env store documentId fileUrl =
      (Except.error ("Invalid date format: " ++ d), store,
       [CallEv.logCall (processingLogEntry documentId), CallEv.urlCall fileUrl,
        CallEv.extractCall (env.getPublicUrl fileUrl).1]) := by
    rw [processBody, if_neg hid, hlog1]
    rw [show (env.getPublicUrl fileUrl).2 = none from hurl]
    rw [hext]
    rw [hd] at hguard
    simp only [hd, Option.getD_some, if_pos hguard]
  have hc := processDocument_catch env store documentId fileUrl
    ("Invalid date format: " ++ d) store _ hb herr
  constructor
  · refine ⟨"Invalid date format: ", "", ?_⟩
    rw [hc]
    simp only [if_neg (invalid_date_msg_ne_empty d)]
    rw [show ("Invalid date format: " ++ d ++ "" : String) =
      ("Invalid date format: " ++ d) from String.append_empty _]
  · intro r hr hcomp
    rw [hc] at hr
    by_cases hu : (env.upsertErr (errorPayload documentId
        ("Invalid date format: " ++ d) env.time)).isNone = true
    · rw [if_pos hu] at hr
      rcases mem_applyUpsert _ _ _ hr with h | ⟨r0, hr0⟩
      · exact h
      · rw [hr0, applyPayload_errorPayload] at hcomp
        exact absurd hcomp (by simp)
    · rw [if_neg hu] at hr
      exact hr

/-- C5 witness: the theorem at a concrete environment whose extracted date
is the unparseable string `not-a-date`. -/
theorem C5_witness :
    (∃ pre post : String,
      (processDocument badDateEnv [] "doc-1" "file-1").1 =
        Except.ok { success := false, error := some (pre ++ "not-a-date" ++ post) }) ∧
    (∀ r ∈ (processDocument badDateEnv [] "doc-1" "file-1").2.1,
      r.processing_status = some "completed" → r ∈ ([] : List DocRow)) :=
  C5_invalid_date badDateEnv [] "doc-1" "file-1" "not-a-date" infoBadDate
    (by decide) rfl rfl rfl rfl (by decide) rfl rfl

/-- Only the `processing`-status log write fails; every other collaborator
succeeds. -/
def procLogDownEnv : Env :=
  { happyEnv with
    log := fun e => if e.status = "processing" then Except.error "log down" else Except.ok () }

/-- C6 counterexample: the claim says a logging failure is fail-soft and
does not cause a failure result.  In an environment where only the logging
collaborator's `processing` write fails and everything else succeeds, the
invocation nevertheless produces `{success: false}`. -/
theorem C6_counterexample :
    (processDocument procLogDownEnv [] "doc-1" "file-1").1 =
      Except.ok { success := false, error := some "log down" } := by
  rfl

/-- C6 (amended): a failure of a logging-collaborator write is not
fail-soft: the log calls are awaited and unguarded, so the thrown logging
error aborts the pipeline, is caught at the top level, and the invocation
returns `{success: false}` carrying the logging error's message (provided
the catch handler's own log write succeeds; if that fails too, the exception
escapes). -/
theorem C6_log_failure_propagates (env : Env) (store : List DocRow)
    (documentId fileUrl m : String)
    (hid : documentId ≠ "")
    (hm : m ≠ "")
    (hlog1 : env.log (processingLogEntry documentId) = Except.error m)
    (herr : env.log (errorLogEntry documentId m) = Except.ok ()) :
    (processDocument env store documentId fileUrl).1 =
      Except.ok { success := false, error := some m } := by
  have hb : processBody env store documentId fileUrl =
      (Except.error m, store, [CallEv.logCall (processingLogEntry documentId)]) := by
    rw [processBody, if_neg hid, hlog1]
  rw [processDocument_catch env store documentId fileUrl m store _ hb herr]
  simp only [if_neg hm]

/-- C6 witness: the amended theorem at the concrete environment whose
`processing` log write fails. -/
theorem C6_witness :
    (processDocument procLogDownEnv [] "doc-1" "file-1").1 =
      Except.ok { success := false, error := some "log down" } :=
  C6_log_failure_propagates procLogDownEnv [] "doc-1" "file-1" "log down"
    (by decide) (by decide) rfl rfl

/-- C7: calling `processDocument` twice in sequence with identical inputs,
where both invocations succeed, leaves exactly one DocumentInfo record keyed
by the document identifier: the second call's upsert matches on document_id
and overwrites, rather than inserting a duplicate. -/
theorem C7_idempotent (env : Env) (store : List DocRow) (documentId fileUrl : String)
    (info : ExtractedInfo)
    (hid : documentId ≠ "")
    (hlog : ∀ e, env.log e = Except.ok ())
    (hurl : (env.getPublicUrl fileUrl).2 = none)
    (hext : env.extract (env.getPublicUrl fileUrl).1 = Except.ok (some info))
    (hdate : ∀ d, info.invoiceDate = some d → d ≠ "" → env.parseDate d ≠ none)
    (hup : ∀ p, env.upsertErr p = none)
    (huniq : (rowsFor store documentId).length ≤ 1) :
    (processDocument env store documentId fileUrl).1 = Except.ok { success := true } ∧
    (processDocument env (processDocument env store documentId fileUrl).2.1
        documentId fileUrl).1 = Except.ok { success := true } ∧
    ∃ r : DocRow,
      rowsFor (processDocument env (processDocument env store documentId fileUrl).2.1
        documentId fileUrl).2.1 documentId = [r] ∧
      r.processing_status = some "completed" ∧
      r.vendor_name = info.vendorName ∧
      r.invoice_number = info.invoiceNumber ∧
      r.invoice_date = normDate env.parseDate info.invoiceDate ∧
      r.total_amount = info.totalAmount := by
  have h1 := processDocument_all_ok env store documentId fileUrl info hid hlog hurl hext hdate hup
  obtain ⟨r1, hr1⟩ := rowsFor_applyUpsert_self store
    (completedPayload documentId info (normDate env.parseDate info.invoiceDate) fileUrl env.time)
    huniq
  have huniq2 : (rowsFor (processDocument env store documentId fileUrl).2.1 documentId).length
      ≤ 1 := by
    rw [h1]
    rw [show rowsFor (applyUpsert store (completedPayload documentId info
      (normDate env.parseDate info.invoiceDate) fileUrl env.time)) documentId =
        [applyPayload r1 _] from hr1]
    exact le_refl 1
  have h2 := processDocument_all_ok env (processDocument env store documentId fileUrl).2.1
    documentId fileUrl info hid hlog hurl hext hdate hup
  refine ⟨by rw [h1], by rw [h2], ?_⟩
  obtain ⟨r2, hr2⟩ := rowsFor_applyUpsert_self
    (processDocument env store documentId fileUrl).2.1
    (completedPayload documentId info (normDate env.parseDate info.invoiceDate) fileUrl env.time)
    huniq2
  rw [h2]
  exact ⟨applyPayload r2 _, hr2, rfl, rfl, rfl, rfl, rfl⟩

/-- C7 witness: two successive runs in the all-succeeding environment. -/
theorem C7_witness :
    (processDocument happyEnv [] "doc-1" "file-1").1 = Except.ok { success := true } ∧
    (processDocument happyEnv (processDocument happyEnv [] "doc-1" "file-1").2.1
        "doc-1" "file-1").1 = Except.ok { success := true } ∧
    ∃ r : DocRow,
      rowsFor (processDocument happyEnv (processDocument happyEnv [] "doc-1" "file-1").2.1
        "doc-1" "file-1").2.1 "doc-1" = [r] ∧
      r.processing_status = some "completed" ∧
      r.vendor_name = infoW.vendorName ∧
      r.invoice_number = infoW.invoiceNumber ∧
      r.invoice_date = normDate happyEnv.parseDate infoW.invoiceDate ∧
      r.total_amount = infoW.totalAmount :=
  C7_idempotent happyEnv [] "doc-1" "file-1" infoW (by decide)
    (fun _ => rfl) rfl rfl
    (by
      intro d hd hne
      have hdq : d = "2024-01-01" := by
        have h := hd
        simp only [infoW] at h
        exact (Option.some.injEq _ _ ▸ h).symm
      rw [hdq]
      decide)
    (fun _ => rfl) (by decide)

/-- C8: on the failure path, the error-status upsert payload carries only
the document identifier, the `error` status, the error message and the
update timestamp; none of the extracted fields (vendor name, invoice number,
invoice date, total amount) is included. -/
theorem C8_error_upsert_frame (env : Env) (store : List DocRow) (documentId fileUrl : String)
    (p : Payload)
    (hmem : CallEv.upsertCall p ∈ (processDocument env store documentId fileUrl).2.2)
    (hstat : p.processing_status = some (some "error")) :
    p.document_id = documentId ∧
    (∃ msg : String, p.error_message = some (some msg)) ∧
    p.updated_at = some (some env.time) ∧
    p.vendor_name = none ∧
    p.invoice_number = none ∧
    p.invoice_date = none ∧
    p.total_amount = none ∧
    p.processed_at = none ∧
    p.file_url = none ∧
    p.page_count = none := by
  rcases upsert_of_processDocument env store documentId fileUrl p hmem with ⟨info, hp⟩ | ⟨msg, hp⟩
  · rw [hp] at hstat
    exact absurd hstat (by simp [completedPayload])
  · rw [hp]
    exact ⟨rfl, ⟨msg, rfl⟩, rfl, rfl, rfl, rfl, rfl, rfl, rfl, rfl⟩

/-- C8 witness: the frame theorem at the error upsert of a concrete failed
run. -/
theorem C8_witness :
    (errorPayload "" "Invalid document ID" 7).document_id = "" ∧
    (∃ msg : String,
      (errorPayload "" "Invalid document ID" 7).error_message = some (some msg)) ∧
    (errorPayload "" "Invalid document ID" 7).updated_at = some (some happyEnv.time) ∧
    (errorPayload "" "Invalid document ID" 7).vendor_name = none ∧
    (errorPayload "" "Invalid document ID" 7).invoice_number = none ∧
    (errorPayload "" "Invalid document ID" 7).invoice_date = none ∧
    (errorPayload "" "Invalid document ID" 7).total_amount = none ∧
    (errorPayload "" "Invalid document ID" 7).processed_at = none ∧
    (errorPayload "" "Invalid document ID" 7).file_url = none ∧
    (errorPayload "" "Invalid document ID" 7).page_count = none :=
  C8_error_upsert_frame happyEnv [] "" "file-1" (errorPayload "" "Invalid document ID" 7)
    (by decide) rfl

/-- A stored page count is only used when it is truthy, hence positive. -/
lemma storedPageCount_pos (docInfo : Option (Option Nat)) (err : Option String) (k : Nat)
    (h : storedPageCount docInfo err = some k) : 1 ≤ k := by
  by_cases he : err.isNone = true
  · rcases docInfo with _ | (_ | n)
    · simp [storedPageCount, he] at h
    · simp [storedPageCount, he] at h
    · simp only [storedPageCount, if_pos he] at h
      by_cases hn : n = 0
      · rw [if_pos hn] at h
        exact absurd h (by simp)
      · rw [if_neg hn] at h
        have hnk : n = k := by simpa using h
        omega
  · simp [storedPageCount, he] at h

/-- Any successful result of the page-count `try` block is positive: it is
either a truthy stored count or a `max 1 _` estimate. -/
lemma pageCountBody_pos (env : PCEnv) (store : List DocRow) (documentId fileUrl : String)
    (n : Nat) (s : List DocRow)
    (hb : pageCountBody env store documentId fileUrl = (Except.ok n, s)) : 1 ≤ n := by
  rw [pageCountBody] at hb
  cases h1 : env.lookup documentId with
  | error m =>
    simp only [h1] at hb
    exact absurd hb (by simp)
  | ok q =>
    simp only [h1] at hb
    cases h2 : storedPageCount q.1 q.2 with
    | some k =>
      simp only [h2] at hb
      have hk := storedPageCount_pos q.1 q.2 k h2
      have : k = n := by simpa using congrArg (fun x => x.1) hb
      omega
    | none =>
      simp only [h2] at hb
      cases h3 : (env.getPublicUrl fileUrl).2 with
      | some m =>
        simp only [h3] at hb
        exact absurd hb (by simp)
      | none =>
        simp only [h3] at hb
        cases h4 : env.head (env.getPublicUrl fileUrl).1 with
        | error m =>
          simp only [h4] at hb
          exact absurd hb (by simp)
        | ok r =>
          simp only [h4] at hb
          by_cases h5 : r.1 = true
          · simp only [if_pos h5] at hb
            have : max 1 ((r.2.getD 0 + 100 * 1024 - 1) / (100 * 1024)) = n := by
              simpa using congrArg (fun x => x.1) hb
            omega
          · simp only [if_neg h5] at hb
            exact absurd hb (by simp)

/-- C9: with no usable stored page count and a successful metadata probe
reporting content-length `cl`, the estimate is
`max 1 ⌈cl / 102400⌉` (100 KiB per page, minimum one page). -/
theorem C9_page_estimate (env : PCEnv) (store : List DocRow) (documentId fileUrl : String)
    (q : Option (Option Nat) × Option String) (cl : Nat)
    (hlk : env.lookup documentId = Except.ok q)
    (hstored : storedPageCount q.1 q.2 = none)
    (hurl : (env.getPublicUrl fileUrl).2 = none)
    (hhead : env.head (env.getPublicUrl fileUrl).1 = Except.ok (true, some cl)) :
    (getDocumentPageCount env store documentId fileUrl).1 = max 1 ⌈(cl : ℚ) / 102400⌉₊ := by
  have hb : pageCountBody env store documentId fileUrl =
      (Except.ok (max 1 ((cl + 100 * 1024 - 1) / (100 * 1024))),
       if (env.upsertErr (pageCountPayload documentId
             (max 1 ((cl + 100 * 1024 - 1) / (100 * 1024))) env.time)).isNone = true then
         applyUpsert store (pageCountPayload documentId
           (max 1 ((cl + 100 * 1024 - 1) / (100 * 1024))) env.time)
       else store) := by
    rw [pageCountBody, hlk]
    simp only [hstored, hurl, hhead, Option.getD_some]
    rw [if_pos trivial]
  rw [getDocumentPageCount, hb]
  have hc := nat_ceilDiv_eq_rat_ceil cl 102400 (by norm_num)
  rw [show (100 * 1024 : ℕ) = 102400 by norm_num, hc]
  norm_num

/-- A page-count environment with no stored count and a 250,000-byte file. -/
def pcHappyEnv : PCEnv :=
  { lookup := fun _ => Except.ok (none, none)
    getPublicUrl := fun u => ("https://pub/" ++ u, none)
    head := fun _ => Except.ok (true, some 250000)
    upsertErr := fun _ => none
    time := 7 }

/-- C9 witness: for a 250,000-byte file with no stored count the estimate is
`ceil(250000 / 102400) = 3`. -/
theorem C9_witness :
    (getDocumentPageCount pcHappyEnv [] "doc-1" "file-1").1 =
      max 1 ⌈(250000 : ℚ) / 102400⌉₊ ∧
    (getDocumentPageCount pcHappyEnv [] "doc-1" "file-1").1 = 3 := by
  have h := C9_page_estimate pcHappyEnv [] "doc-1" "file-1" (none, none) 250000 rfl rfl rfl rfl
  refine ⟨h, ?_⟩
  rw [h]
  rw [show (102400 : ℚ) = ((102400 : ℕ) : ℚ) by norm_num]
  rw [← nat_ceilDiv_eq_rat_ceil 250000 102400 (by norm_num)]
  decide

/-- A page-count environment whose very first collaborator call throws. -/
def pcFailEnv : PCEnv :=
  { lookup := fun _ => Except.error "db down"
    getPublicUrl := fun u => ("https://pub/" ++ u, none)
    head := fun _ => Except.error "net down"
    upsertErr := fun _ => none
    time := 7 }

/-- C10: `getDocumentPageCount` never throws and always returns a positive
integer; whenever its `try` block fails anywhere, it returns the fallback 1
instead of propagating the error. -/
theorem C10_page_count_positive (env : PCEnv) (store : List DocRow)
    (documentId fileUrl : String) :
    1 ≤ (getDocumentPageCount env store documentId fileUrl).1 ∧
    (∀ m : String, ∀ s : List DocRow,
      pageCountBody env store documentId fileUrl = (Except.error m, s) →
      (getDocumentPageCount env store documentId fileUrl).1 = 1) := by
  constructor
  · rcases hb : pageCountBody env store documentId fileUrl with ⟨res, s⟩
    cases res with
    | error m =>
      rw [getDocumentPageCount, hb]
    | ok n =>
      rw [getDocumentPageCount, hb]
      exact pageCountBody_pos env store documentId fileUrl n s hb
  · intro m s hb
    rw [getDocumentPageCount, hb]

/-- C10 witness: when the stored-count lookup throws, the function returns
the fallback of one page. -/
theorem C10_witness :
    1 ≤ (getDocumentPageCount pcFailEnv [] "doc-1" "file-1").1 ∧
    (getDocumentPageCount pcFailEnv [] "doc-1" "file-1").1 = 1 :=
  (C10_page_count_positive pcFailEnv [] "doc-1" "file-1").imp id
    (fun h => h "db down" [] rfl)

end Invoice
